import Mathlib

/-!
Verification of the invoice reconciliation pipeline (`process_invoice_data`
in `app.py`).  The upstream JSON payload is modelled as a structure of
optional fields (absence of a key, or a `null` value, is `none`); numeric
values are modelled as exact rationals.  Python `float(...)` applied to a
stringified value is modelled by `parseDecimal`, restricted to plain decimal
numerals with optional sign, fraction and exponent (the surrounding
whitespace, underscore separators and `inf`/`nan` forms accepted by Python
are outside the model; no claim exercises them).
-/

attribute [local semireducible] Rat.add Rat.mul Rat.sub Rat.inv Rat.ofScientific

namespace Invoice

/-- Model of Python `str.replace(",", "")`. -/
def stripCommas (s : String) : String :=
  String.mk (s.data.filter (fun ch => ch != ','))

/-- Value of a nonempty digit string read left to right. -/
def readDigits (l : List Char) : Nat :=
  l.foldl (fun n c => 10 * n + (c.toNat - 48)) 0

/-- Mantissa of a decimal numeral: digits with at most one dot, at least one
digit overall (so "1.", ".5" parse, "." and "" do not). -/
def parseMantissa (l : List Char) : Option ℚ :=
  match l.splitOn '.' with
  | [ip] =>
      if !ip.isEmpty && ip.all Char.isDigit then
        some ((readDigits ip : ℚ))
      else none
  | [ip, fp] =>
      if (!ip.isEmpty || !fp.isEmpty) && ip.all Char.isDigit && fp.all Char.isDigit then
        some ((readDigits ip : ℚ) + (readDigits fp : ℚ) / (10 : ℚ) ^ fp.length)
      else none
  | _ => none

/-- Signed integer exponent of a decimal numeral. -/
def parseExp (l : List Char) : Option Int :=
  match l with
  | '-' :: r =>
      if !r.isEmpty && r.all Char.isDigit then some (-(readDigits r : Int)) else none
  | '+' :: r =>
      if !r.isEmpty && r.all Char.isDigit then some ((readDigits r : Int)) else none
  | r =>
      if !r.isEmpty && r.all Char.isDigit then some ((readDigits r : Int)) else none

/-- Integer power of ten over the rationals. -/
def powTen (e : Int) : ℚ :=
  if 0 ≤ e then (10 : ℚ) ^ e.toNat else 1 / (10 : ℚ) ^ (-e).toNat

/-- Model of Python `float(s)` on a decimal numeral: optional sign, digits
with at most one dot, optional exponent part introduced by `e` or `E`. -/
def parseDecimal (s : String) : Option ℚ :=
  let (sgn, cs) :=
    match s.data with
    | '-' :: r => ((-1 : ℚ), r)
    | '+' :: r => ((1 : ℚ), r)
    | r => ((1 : ℚ), r)
  let lowered := cs.map (fun ch => if ch = 'E' then 'e' else ch)
  match lowered.splitOn 'e' with
  | [m] => (parseMantissa m).map (fun q => sgn * q)
  | [m, e] =>
      match parseMantissa m, parseExp e with
      | some mv, some ev => some (sgn * mv * powTen ev)
      | _, _ => none
  | _ => none

/-- Model of `float(str(x).replace(",", ""))`, the one numeric normalization
rule of the pipeline. -/
def normNum (s : String) : Option ℚ :=
  parseDecimal (stripCommas s)

/-- Model of Python `math.isclose(a, b, rel_tol=1e-2)` with the default
`abs_tol=0.0`: `|a-b| <= max(rel_tol * max(|a|,|b|), abs_tol)`. -/
def iscloseQ (a b : ℚ) : Bool :=
  decide (|a - b| ≤ max ((1 / 100) * max |a| |b|) 0)

/-- The `address` sub-object of a service location. -/
structure Address where
  street : Option String
  city : Option String
  state : Option String
  zip : Option String
deriving DecidableEq

/-- One entry of a `line_items` array.  `total` holds the stringified raw
value (`str(raw)`); the other fields are passed through to the table. -/
structure LineItem where
  date : Option String
  description : Option String
  quantity : Option String
  total : Option String
deriving DecidableEq

/-- One entry of the `service_locations` array. -/
structure Location where
  location_name : Option String
  address : Option Address
  line_items : Option (List LineItem)
deriving DecidableEq

/-- The `message.content` object of the webhook response; every field
optional.  Numeric fields hold their stringified raw values. -/
structure Content where
  Prompt_Version : Option String
  NoOfTokensUsed : Option String
  GPTCostIncurred : Option String
  invoice_number : Option String
  invoice_total : Option String
  accrual_date : Option String
  due_date : Option String
  service_locations : Option (List Location)
deriving DecidableEq

/-- The empty dict used as default for a missing `address`. -/
def emptyAddress : Address := ⟨none, none, none, none⟩

/-- The empty dict placed in the singleton default `[{}]` for a missing
`service_locations`. -/
def emptyLoc : Location := ⟨none, none, none⟩

/-- Model of `float(str(item.get("total", "0")).replace(",", ""))`. -/
def parseTotal (it : LineItem) : Option ℚ :=
  normNum (it.total.getD "0")

/-- Parse every line-item total, failing on the first unparsable one (as the
generator inside `sum(...)` raises `ValueError`). -/
def parseTotals : List LineItem → Option (List ℚ)
  | [] => some []
  | it :: rest =>
      match parseTotal it, parseTotals rest with
      | some t, some ts => some (t :: ts)
      | _, _ => none

/-- Characters removed from both ends by `str.strip(", ")`. -/
def isStripChar (ch : Char) : Bool :=
  ch == ',' || ch == ' '

/-- Model of Python `s.strip(", ")`: drop characters of the set from both
ends. -/
def pyStrip (s : String) : String :=
  String.mk (((s.data.dropWhile isStripChar).reverse.dropWhile isStripChar).reverse)

/-- Model of `addr.get(key, "") or ""` for one address component. -/
def componentOf (o : Option String) : String :=
  o.getD ""

/-- Model of the address assembly
`f"{street} {city}, {state} {zip}".strip(", ")` with the empty-string
fallback `full_address or "Address not found"`. -/
def displayedAddress (a : Address) : String :=
  let full := pyStrip (componentOf a.street ++ " " ++ componentOf a.city ++ ", "
      ++ componentOf a.state ++ " " ++ componentOf a.zip)
  if full = "" then "Address not found" else full

/-- The header list of (location name, displayed address) pairs, built from
`content.get("service_locations", [])`. -/
def locEntries (ls : List Location) : List (String × String) :=
  ls.map (fun loc =>
    (loc.location_name.getD "N/A", displayedAddress (loc.address.getD emptyAddress)))

/-- One row of the line-items display table: a numbered item row or the
synthetic subtotal row appended by `pd.concat`. -/
inductive TableRow where
  | item (index : Nat) (date description quantity : Option String) (total : ℚ)
  | subtotal (total : ℚ)
deriving DecidableEq

/-- Item rows with 1-based indices, as built by `enumerate(line_items_raw, 1)`
paired with the already-parsed totals. -/
def mkRows : Nat → List (LineItem × ℚ) → List TableRow
  | _, [] => []
  | i, (it, t) :: rest =>
      TableRow.item i it.date it.description it.quantity t :: mkRows (i + 1) rest

/-- The successful presentation state: header facts, KPI values, badge
visibilities and the display table. -/
structure SuccessState where
  promptVersion : String
  tokensUsed : String
  cost : ℚ
  invoiceNumber : String
  accrualDate : String
  dueDate : String
  lineCount : Nat
  lineTotalSum : ℚ
  invoiceTotal : ℚ
  validatedVisible : Bool
  mismatchVisible : Bool
  table : List TableRow
  locations : List (String × String)
deriving DecidableEq

/-- Model of `float(str(content.get("GPTCostIncurred", "0")).replace(",", "")))`. -/
def costOf (c : Content) : Option ℚ :=
  normNum (c.GPTCostIncurred.getD "0")

/-- Model of `content.get("service_locations", [{}])`. -/
def locsOf (c : Content) : List Location :=
  c.service_locations.getD [emptyLoc]

/-- Model of `float(str(content.get("invoice_total", "0")).replace(",", ""))`. -/
def invoiceOf (c : Content) : Option ℚ :=
  normNum (c.invoice_total.getD "0")

/-- The line items actually used by the pipeline: those of the first entry of
`service_locations` (empty when the defaulted first entry has none). -/
def firstItems (c : Content) : List LineItem :=
  match locsOf c with
  | [] => []
  | loc :: _ => loc.line_items.getD []

/-- Assemble the successful presentation state from the parsed pieces. -/
def mkState (c : Content) (cost : ℚ) (items : List LineItem) (ts : List ℚ)
    (inv : ℚ) : SuccessState :=
  let sum := ts.sum
  let v := iscloseQ inv sum
  { promptVersion := c.Prompt_Version.getD "N/A"
    tokensUsed := c.NoOfTokensUsed.getD "N/A"
    cost := cost
    invoiceNumber := c.invoice_number.getD "N/A"
    accrualDate := c.accrual_date.getD "N/A"
    dueDate := c.due_date.getD "N/A"
    lineCount := items.length
    lineTotalSum := sum
    invoiceTotal := inv
    validatedVisible := v
    mismatchVisible := !v
    table := mkRows 1 (items.zip ts) ++ (if items.isEmpty then [] else [TableRow.subtotal sum])
    locations := locEntries (c.service_locations.getD []) }

/-- The pipeline over an already-received `content` object, in source order:
parse the cost (line 89), index the first service location (line 91, an
`IndexError` when the list is present but empty), sum the parsed line-item
totals (line 95), parse the invoice total (line 97), then build the state.
Any failure lands in the generic `except` handler, modelled as `.error ()`. -/
def process (c : Content) : Except Unit SuccessState :=
  match costOf c with
  | none => .error ()
  | some cost =>
    match locsOf c with
    | [] => .error ()
    | loc :: _ =>
      match parseTotals (loc.line_items.getD []) with
      | none => .error ()
      | some ts =>
        match invoiceOf c with
        | none => .error ()
        | some inv => .ok (mkState c cost (loc.line_items.getD []) ts inv)

/-- The widget updates the handler returns: error-banner flag and the four
visibility flags of `status_output`, `results_col`, `placeholder_col` and the
two badge boxes. -/
structure Updates where
  statusError : Bool
  resultsVisible : Bool
  placeholderVisible : Bool
  validatedVisible : Bool
  mismatchVisible : Bool
deriving DecidableEq

/-- Final updates: on success the results column is shown with the badge
visibilities of the state; on failure the `initial_updates` dictionary is
returned with the error banner set (results hidden, placeholder shown, both
badges hidden). -/
def updatesOf (r : Except Unit SuccessState) : Updates :=
  match r with
  | .ok s => ⟨false, true, false, s.validatedVisible, s.mismatchVisible⟩
  | .error _ => ⟨true, false, true, false, false⟩

/-- The displayed widget state for a content object. -/
def display (c : Content) : Updates :=
  updatesOf (process c)

/-- Badge visibilities of a successful run, `none` on failure. -/
def badgeOf (r : Except Unit SuccessState) : Option (Bool × Bool) :=
  match r with
  | .ok s => some (s.validatedVisible, s.mismatchVisible)
  | .error _ => none

/-- Line count, table and badge visibilities of a successful run. -/
def stateSummary (r : Except Unit SuccessState) :
    Option (Nat × List TableRow × Bool × Bool) :=
  match r with
  | .ok s => some (s.lineCount, s.table, s.validatedVisible, s.mismatchVisible)
  | .error _ => none

/-- A line item whose (defaulted) total parses. -/
def itemOk (it : LineItem) : Bool :=
  (parseTotal it).isSome

/-- Every numeric field that the pipeline parses does parse, and
`service_locations`, when present, is nonempty: exactly the contents on which
the `try` block cannot raise. -/
def contentParses (c : Content) : Bool :=
  (costOf c).isSome && (invoiceOf c).isSome &&
    (match c.service_locations with
     | none => true
     | some [] => false
     | some (loc :: _) => (loc.line_items.getD []).all itemOk)

/-- The address-assembly rule as the spec states it (for comparison with
`displayedAddress`): non-empty components joined with single spaces, with
"Address not found" when all four are empty. -/
def specJoinAddress (a : Address) : String :=
  let comps := [componentOf a.street, componentOf a.city, componentOf a.state,
    componentOf a.zip].filter (fun s => s != "")
  if comps.isEmpty then "Address not found" else String.intercalate " " comps

/-- The amended address rule: the code's fixed template
`{street} {city}, {state} {zip}` over defaulted components, stripped of
leading and trailing commas and spaces, with the "Address not found"
fallback for an empty result. -/
def specAddressAmended (a : Address) : String :=
  let templ := pyStrip (componentOf a.street ++ " " ++ componentOf a.city ++ ", "
      ++ componentOf a.state ++ " " ++ componentOf a.zip)
  if templ = "" then "Address not found" else templ

/-- Strip grouping commas from the raw total of a line item. -/
def stripItem (it : LineItem) : LineItem :=
  { it with total := it.total.map stripCommas }

/-- Strip grouping commas from every line-item total of a location. -/
def stripLoc (l : Location) : Location :=
  { l with line_items := l.line_items.map (List.map stripItem) }

/-- Strip grouping commas from every numeric field of a content object; two
contents with the same image differ only in comma formatting. -/
def stripContent (c : Content) : Content :=
  { c with
    GPTCostIncurred := c.GPTCostIncurred.map stripCommas
    invoice_total := c.invoice_total.map stripCommas
    service_locations := c.service_locations.map (List.map stripLoc) }

/-- The fully absent payload. -/
def cW : Content := ⟨none, none, none, none, none, none, none, none⟩

/-- A line item carrying only a raw total. -/
def mkItem (t : String) : LineItem := ⟨none, none, none, some t⟩

/-- A location with a single line item of the given raw total. -/
def mkLoc1 (t : String) : Location := ⟨none, none, some [mkItem t]⟩

/-- A content object with the given raw invoice total and one line item. -/
def cInv (inv t : String) : Content :=
  ⟨none, none, none, none, some inv, none, none, some [mkLoc1 t]⟩

/-- Invoice total 100 against an empty, present line-item list. -/
def c5c : Content :=
  ⟨none, none, none, none, some "100", none, none, some [⟨none, none, some []⟩]⟩

/-- A content object whose service-locations list is present but empty. -/
def cLocsEmpty : Content := { cW with service_locations := some [] }

/-- A content object with a malformed line-item total. -/
def c3w : Content := cInv "100.00" "abc"

/-- A content object with a malformed invoice total. -/
def cAbc : Content := { cW with invoice_total := some "abc" }

/-- The end-to-end payload with comma-formatted totals. -/
def c8a : Content :=
  ⟨none, none, some "1,234.50", none, some "1,000.00", none, none,
    some [⟨none, none, some [mkItem "600.00", mkItem "400.00"]⟩]⟩

/-- The same payload as `c8a` without grouping commas. -/
def c8b : Content :=
  ⟨none, none, some "1234.50", none, some "1000.00", none, none,
    some [⟨none, none, some [mkItem "600.00", mkItem "400.00"]⟩]⟩

/-- A second location whose line item must not be counted. -/
def locB : Location := ⟨some "B", none, some [mkItem "999"]⟩

theorem process_ok_elim {c : Content} {s : SuccessState} (h : process c = .ok s) :
    ∃ cost loc rest ts inv,
      costOf c = some cost ∧ locsOf c = loc :: rest ∧
      parseTotals (loc.line_items.getD []) = some ts ∧ invoiceOf c = some inv ∧
      s = mkState c cost (loc.line_items.getD []) ts inv := by
  unfold process at h
  split at h
  · exact absurd h (by simp)
  rename_i cost hc
  split at h
  · exact absurd h (by simp)
  rename_i loc rest hl
  split at h
  · exact absurd h (by simp)
  rename_i ts ht
  split at h
  · exact absurd h (by simp)
  rename_i inv hi
  injection h with h
  exact ⟨cost, loc, rest, ts, inv, hc, hl, ht, hi, h.symm⟩

theorem process_mk {c : Content} {cost inv : ℚ} {loc : Location}
    {rest : List Location} {ts : List ℚ}
    (hc : costOf c = some cost) (hl : locsOf c = loc :: rest)
    (ht : parseTotals (loc.line_items.getD []) = some ts)
    (hi : invoiceOf c = some inv) :
    process c = .ok (mkState c cost (loc.line_items.getD []) ts inv) := by
  unfold process
  simp only [hc, hl, ht, hi]

theorem iscloseQ_eq_true_iff (a b : ℚ) :
    iscloseQ a b = true ↔ |a - b| ≤ (1 / 100) * max |a| |b| := by
  have h0 : (0 : ℚ) ≤ (1 / 100) * max |a| |b| :=
    mul_nonneg (by norm_num) (le_trans (abs_nonneg a) (le_max_left _ _))
  unfold iscloseQ
  rw [decide_eq_true_iff, max_eq_left h0]

theorem iscloseQ_zero (a : ℚ) : iscloseQ a 0 = decide (a = 0) := by
  rcases eq_or_ne a 0 with rfl | h
  · decide
  · have h0 : 0 < |a| := abs_pos.mpr h
    have hfalse : ¬ (|a - 0| ≤ max ((1 / 100) * max |a| |0|) 0) := by
      rw [sub_zero, abs_zero, max_eq_left (abs_nonneg a),
        max_eq_left (by positivity : (0 : ℚ) ≤ 1 / 100 * |a|)]
      intro hle
      linarith
    unfold iscloseQ
    rw [decide_eq_false hfalse, decide_eq_false h]

theorem parseTotals_eq_none_of_mem {items : List LineItem} {it : LineItem}
    (hmem : it ∈ items) (hbad : parseTotal it = none) :
    parseTotals items = none := by
  induction items with
  | nil => cases hmem
  | cons a t ih =>
    rcases List.mem_cons.mp hmem with rfl | hmem2
    · simp [parseTotals, hbad]
    · unfold parseTotals
      rw [ih hmem2]
      cases parseTotal a <;> rfl

theorem parseTotals_isSome_of_all {items : List LineItem}
    (h : items.all itemOk = true) : ∃ ts, parseTotals items = some ts := by
  induction items with
  | nil => exact ⟨[], rfl⟩
  | cons a t ih =>
    rw [List.all_cons, Bool.and_eq_true] at h
    obtain ⟨ts, hts⟩ := ih h.2
    obtain ⟨q, hq⟩ := Option.isSome_iff_exists.mp h.1
    exact ⟨q :: ts, by simp [parseTotals, hq, hts]⟩

/-- Claim C1: for every normalized record the Validated badge is shown iff
the absolute difference of the invoice total and the line-total sum is at
most one percent of the larger of the two magnitudes (a relative, not an
absolute, tolerance), and the Mismatch badge is shown exactly otherwise. -/
theorem claim1_status_iff_relative_tolerance (c : Content) (s : SuccessState)
    (h : process c = .ok s) :
    (s.validatedVisible = true ↔
      |s.invoiceTotal - s.lineTotalSum| ≤
        (1 / 100) * max |s.invoiceTotal| |s.lineTotalSum|) ∧
    s.mismatchVisible = !s.validatedVisible := by
  obtain ⟨cost, loc, rest, ts, inv, hc, hl, ht, hi, rfl⟩ := process_ok_elim h
  constructor
  · simp only [mkState]
    exact iscloseQ_eq_true_iff inv ts.sum
  · simp [mkState]

theorem claim1_witness :
    process cW = .ok (mkState cW 0 [] [] 0) ∧
    (((mkState cW 0 [] [] 0).validatedVisible = true ↔
      |(mkState cW 0 [] [] 0).invoiceTotal - (mkState cW 0 [] [] 0).lineTotalSum| ≤
        (1 / 100) * max |(mkState cW 0 [] [] 0).invoiceTotal|
          |(mkState cW 0 [] [] 0).lineTotalSum|) ∧
      (mkState cW 0 [] [] 0).mismatchVisible = !(mkState cW 0 [] [] 0).validatedVisible) := by
  have hp : process cW = .ok (mkState cW 0 [] [] 0) := by rfl
  exact ⟨hp, claim1_status_iff_relative_tolerance cW (mkState cW 0 [] [] 0) hp⟩

/-- Claim C2 counterexample: with invoice total 100.00 and a single line
item of 101.01 the pipeline shows the Validated badge and not the Mismatch
badge, because 1.01 ≤ 0.01 · 101.01; the claim asserts Mismatch there. -/
theorem claim2_counterexample :
    badgeOf (process (cInv "100.00" "101.01")) = some (true, false) := by decide

/-- Claim C2 (amended): with invoice total 100.00, a line-total sum of
100.99 is Validated, 101.01 is also Validated (the tolerance is relative to
the larger magnitude, and 1.01 ≤ 0.01 · 101.01 = 1.0101), and 101.02 is a
Mismatch (1.02 > 0.01 · 101.02 = 1.0102). -/
theorem claim2_tolerance_boundary :
    badgeOf (process (cInv "100.00" "100.99")) = some (true, false) ∧
    badgeOf (process (cInv "100.00" "101.01")) = some (true, false) ∧
    badgeOf (process (cInv "100.00" "101.02")) = some (false, true) :=
  ⟨by decide, by decide, by decide⟩

/-- Claim C3: when the cost, the invoice total or a line-item total of the
first service location is present but its comma-stripped string does not
parse as a decimal number, the pipeline lands in the generic parse-error
state and never produces a presentation state (so the value is never
treated as 0). -/
theorem claim3_unparsable_is_fatal (c : Content)
    (h : (∃ str, c.GPTCostIncurred = some str ∧ normNum str = none) ∨
         (∃ str, c.invoice_total = some str ∧ normNum str = none) ∨
         (∃ it, it ∈ firstItems c ∧ ∃ str, it.total = some str ∧ normNum str = none)) :
    process c = .error () := by
  rcases h with ⟨str, hs, hn⟩ | ⟨str, hs, hn⟩ | ⟨it, hmem, str, hs, hn⟩
  · have hc : costOf c = none := by simp [costOf, hs, hn]
    simp only [process, hc]
  · have hi : invoiceOf c = none := by simp [invoiceOf, hs, hn]
    cases hco : costOf c with
    | none => simp only [process, hco]
    | some cost =>
      cases hl : locsOf c with
      | nil => simp only [process, hco, hl]
      | cons loc rest =>
        cases ht : parseTotals (loc.line_items.getD []) with
        | none => simp only [process, hco, hl, ht]
        | some ts => simp only [process, hco, hl, ht, hi]
  · have hitem : parseTotal it = none := by simp [parseTotal, hs, hn]
    cases hco : costOf c with
    | none => simp only [process, hco]
    | some cost =>
      cases hl : locsOf c with
      | nil => simp only [process, hco, hl]
      | cons loc rest =>
        have hmem2 : it ∈ loc.line_items.getD [] := by
          have hfi : firstItems c = loc.line_items.getD [] := by
            simp [firstItems, hl]
          rwa [hfi] at hmem
        have ht : parseTotals (loc.line_items.getD []) = none :=
          parseTotals_eq_none_of_mem hmem2 hitem
        simp only [process, hco, hl, ht]

theorem claim3_witness :
    ((∃ str, c3w.GPTCostIncurred = some str ∧ normNum str = none) ∨
     (∃ str, c3w.invoice_total = some str ∧ normNum str = none) ∨
     (∃ it, it ∈ firstItems c3w ∧ ∃ str, it.total = some str ∧ normNum str = none)) ∧
    process c3w = .error () := by
  have hp : (∃ str, c3w.GPTCostIncurred = some str ∧ normNum str = none) ∨
      (∃ str, c3w.invoice_total = some str ∧ normNum str = none) ∨
      (∃ it, it ∈ firstItems c3w ∧ ∃ str, it.total = some str ∧ normNum str = none) :=
    Or.inr (Or.inr ⟨mkItem "abc", by decide, "abc", rfl, by decide⟩)
  exact ⟨hp, claim3_unparsable_is_fatal c3w hp⟩

/-- Claim C5 counterexample: with invoice total 100 and a present but empty
line-item list, the pipeline still shows a validation badge (the Mismatch
badge), while the claim asserts that neither badge is displayed; the line
count is 0 and the table is empty as claimed. -/
theorem claim5_counterexample :
    stateSummary (process c5c) = some (0, [], false, true) := by decide

/-- Claim C5 (amended): with an empty line-item list the line-total sum is
0 and the table is empty with no subtotal row, but a validation badge is
still displayed: Validated exactly when the invoice total is 0, Mismatch
otherwise. -/
theorem claim5_empty_line_items (c : Content) (s : SuccessState)
    (h : process c = .ok s) (hcount : s.lineCount = 0) :
    s.lineTotalSum = 0 ∧ s.table = [] ∧
    s.validatedVisible = decide (s.invoiceTotal = 0) ∧
    s.mismatchVisible = !s.validatedVisible := by
  obtain ⟨cost, loc, rest, ts, inv, hc, hl, ht, hi, rfl⟩ := process_ok_elim h
  have hitems : loc.line_items.getD [] = [] := by
    have hlen : (loc.line_items.getD []).length = 0 := by simpa [mkState] using hcount
    exact List.length_eq_zero.mp hlen
  rw [hitems] at ht
  have hts : ts = [] := by
    have hsome : some ([] : List ℚ) = some ts := by simpa [parseTotals] using ht
    exact (Option.some.inj hsome).symm
  subst hts
  refine ⟨by simp [mkState], ?_, ?_, by simp [mkState]⟩
  · simp [mkState, hitems, mkRows]
  · simp [mkState, iscloseQ_zero]

theorem claim5_witness :
    process c5c = .ok (mkState c5c 0 [] [] 100) ∧
    ((mkState c5c 0 [] [] 100).lineTotalSum = 0 ∧
     (mkState c5c 0 [] [] 100).table = [] ∧
     (mkState c5c 0 [] [] 100).validatedVisible =
       decide ((mkState c5c 0 [] [] 100).invoiceTotal = 0) ∧
     (mkState c5c 0 [] [] 100).mismatchVisible =
       !(mkState c5c 0 [] [] 100).validatedVisible) := by
  have hp : process c5c = .ok (mkState c5c 0 [] [] 100) := by rfl
  exact ⟨hp, claim5_empty_line_items c5c (mkState c5c 0 [] [] 100) hp rfl⟩

/-- Claim C9: when `service_locations` is present but an empty list, the
pipeline produces the generic parse-error state (the singleton placeholder
default applies only when the key is absent). -/
theorem claim9_empty_locations_error (c : Content)
    (h : c.service_locations = some []) : process c = .error () := by
  have hl : locsOf c = [] := by simp [locsOf, h]
  cases hco : costOf c with
  | none => simp only [process, hco]
  | some cost => simp only [process, hco, hl]

theorem claim9_witness :
    cLocsEmpty.service_locations = some [] ∧ process cLocsEmpty = .error () :=
  ⟨rfl, claim9_empty_locations_error cLocsEmpty rfl⟩

/-- Claim C10: the two validation badges are never both visible, and on
every failure both badges are hidden, the results column is hidden, the
placeholder is shown and the error banner is set. -/
theorem claim10_badge_exclusivity (c : Content) :
    ¬((display c).validatedVisible = true ∧ (display c).mismatchVisible = true) ∧
    (process c = .error () →
      (display c).validatedVisible = false ∧ (display c).mismatchVisible = false ∧
      (display c).resultsVisible = false ∧ (display c).placeholderVisible = true ∧
      (display c).statusError = true) := by
  cases hp : process c with
  | error e =>
    cases e
    exact ⟨by simp [display, updatesOf, hp], fun _ => by simp [display, updatesOf, hp]⟩
  | ok s =>
    obtain ⟨cost, loc, rest, ts, inv, hc, hl, ht, hi, rfl⟩ := process_ok_elim hp
    constructor
    · intro hboth
      obtain ⟨h1, h2⟩ := hboth
      simp [display, updatesOf, hp, mkState] at h1 h2
      simp [h1] at h2
    · intro habs
      exact absurd habs (by simp)

theorem claim10_witness :
    (display cAbc).validatedVisible = false ∧ (display cAbc).mismatchVisible = false ∧
    (display cAbc).resultsVisible = false ∧ (display cAbc).placeholderVisible = true ∧
    (display cAbc).statusError = true :=
  (claim10_badge_exclusivity cAbc).2 (by rfl)

/-- Claim C4: on any payload whose present numeric fields parse and whose
service-locations list is nonempty when present (so absence of fields is the
only defect), the pipeline never fails and produces a full presentation
state in which every absent field carries its documented default: "N/A" for
text fields, 0 for amounts, and an empty item list, sum 0, empty table and
no locations when the whole collection is absent. -/
theorem claim4_default_safety (c : Content) (h : contentParses c = true) :
    ∃ s, process c = .ok s ∧
      (c.Prompt_Version = none → s.promptVersion = "N/A") ∧
      (c.NoOfTokensUsed = none → s.tokensUsed = "N/A") ∧
      (c.GPTCostIncurred = none → s.cost = 0) ∧
      (c.invoice_number = none → s.invoiceNumber = "N/A") ∧
      (c.accrual_date = none → s.accrualDate = "N/A") ∧
      (c.due_date = none → s.dueDate = "N/A") ∧
      (c.invoice_total = none → s.invoiceTotal = 0) ∧
      (c.service_locations = none →
        s.lineCount = 0 ∧ s.lineTotalSum = 0 ∧ s.table = [] ∧ s.locations = []) := by
  unfold contentParses at h
  rw [Bool.and_eq_true, Bool.and_eq_true] at h
  obtain ⟨⟨h1, h2⟩, h3⟩ := h
  obtain ⟨cost, hc⟩ := Option.isSome_iff_exists.mp h1
  obtain ⟨inv, hi⟩ := Option.isSome_iff_exists.mp h2
  have cost0 : c.GPTCostIncurred = none → cost = 0 := by
    intro hn
    have h0 : costOf c = some 0 := by
      simp only [costOf, hn, Option.getD_none]
      decide
    exact Option.some.inj (hc.symm.trans h0)
  have inv0 : c.invoice_total = none → inv = 0 := by
    intro hn
    have h0 : invoiceOf c = some 0 := by
      simp only [invoiceOf, hn, Option.getD_none]
      decide
    exact Option.some.inj (hi.symm.trans h0)
  cases hsl : c.service_locations with
  | none =>
    have hl : locsOf c = [emptyLoc] := by simp [locsOf, hsl]
    have ht : parseTotals (emptyLoc.line_items.getD []) = some [] := rfl
    refine ⟨mkState c cost (emptyLoc.line_items.getD []) [] inv,
      process_mk hc hl ht hi, fun hn => by simp [mkState, hn],
      fun hn => by simp [mkState, hn],
      fun hn => by simp only [mkState]; exact cost0 hn,
      fun hn => by simp [mkState, hn], fun hn => by simp [mkState, hn],
      fun hn => by simp [mkState, hn],
      fun hn => by simp only [mkState]; exact inv0 hn,
      fun _ => ?_⟩
    refine ⟨by simp [mkState, emptyLoc], by simp [mkState], ?_, ?_⟩
    · simp [mkState, emptyLoc, mkRows]
    · simp [mkState, hsl, locEntries]
  | some ls =>
    cases ls with
    | nil =>
      rw [hsl] at h3
      exact absurd h3 (by simp)
    | cons loc rest =>
      have h3' : (loc.line_items.getD []).all itemOk = true := by
        rw [hsl] at h3
        exact h3
      obtain ⟨ts, hts⟩ := parseTotals_isSome_of_all h3'
      have hl : locsOf c = loc :: rest := by simp [locsOf, hsl]
      refine ⟨mkState c cost (loc.line_items.getD []) ts inv,
        process_mk hc hl hts hi, fun hn => by simp [mkState, hn],
        fun hn => by simp [mkState, hn],
        fun hn => by simp only [mkState]; exact cost0 hn,
        fun hn => by simp [mkState, hn], fun hn => by simp [mkState, hn],
        fun hn => by simp [mkState, hn],
        fun hn => by simp only [mkState]; exact inv0 hn,
        fun hn => absurd hn (by simp)⟩

theorem claim4_witness :
    contentParses cW = true ∧
    (∃ s, process cW = .ok s ∧
      (cW.Prompt_Version = none → s.promptVersion = "N/A") ∧
      (cW.NoOfTokensUsed = none → s.tokensUsed = "N/A") ∧
      (cW.GPTCostIncurred = none → s.cost = 0) ∧
      (cW.invoice_number = none → s.invoiceNumber = "N/A") ∧
      (cW.accrual_date = none → s.accrualDate = "N/A") ∧
      (cW.due_date = none → s.dueDate = "N/A") ∧
      (cW.invoice_total = none → s.invoiceTotal = 0) ∧
      (cW.service_locations = none →
        s.lineCount = 0 ∧ s.lineTotalSum = 0 ∧ s.table = [] ∧ s.locations = [])) :=
  ⟨by decide, claim4_default_safety cW (by decide)⟩

/-- Claim C6: the line-total sum, the line count and the display table are
computed from the first service location only; dropping every later location
changes none of them (whenever the original run succeeds, so does the
truncated one, with the same sum, count and table). -/
theorem claim6_first_location_only (c : Content) (loc : Location)
    (rest : List Location) (s1 : SuccessState)
    (h : process { c with service_locations := some (loc :: rest) } = .ok s1) :
    ∃ s2, process { c with service_locations := some [loc] } = .ok s2 ∧
      s2.lineTotalSum = s1.lineTotalSum ∧ s2.lineCount = s1.lineCount ∧
      s2.table = s1.table := by
  obtain ⟨cost, loc1, rest1, ts, inv, hc, hl, ht, hi, rfl⟩ := process_ok_elim h
  have hfix : locsOf { c with service_locations := some (loc :: rest) } = loc :: rest := by
    simp [locsOf]
  have hcons : loc :: rest = loc1 :: rest1 := hfix.symm.trans hl
  injection hcons with e1 e2
  subst e1
  subst e2
  have hc2 : costOf { c with service_locations := some [loc] } = some cost := by
    simpa [costOf] using hc
  have hi2 : invoiceOf { c with service_locations := some [loc] } = some inv := by
    simpa [invoiceOf] using hi
  have hl2 : locsOf { c with service_locations := some [loc] } = [loc] := by
    simp [locsOf]
  exact ⟨mkState { c with service_locations := some [loc] } cost
      (loc.line_items.getD []) ts inv,
    process_mk hc2 hl2 ht hi2, by simp [mkState], by simp [mkState], by simp [mkState]⟩

theorem claim6_witness :
    process { cW with service_locations := some (mkLoc1 "5" :: [locB]) } =
      .ok (mkState { cW with service_locations := some (mkLoc1 "5" :: [locB]) }
        0 [mkItem "5"] [5] 0) ∧
    (∃ s2, process { cW with service_locations := some [mkLoc1 "5"] } = .ok s2 ∧
      s2.lineTotalSum = (mkState { cW with service_locations := some (mkLoc1 "5" :: [locB]) }
        0 [mkItem "5"] [5] 0).lineTotalSum ∧
      s2.lineCount = (mkState { cW with service_locations := some (mkLoc1 "5" :: [locB]) }
        0 [mkItem "5"] [5] 0).lineCount ∧
      s2.table = (mkState { cW with service_locations := some (mkLoc1 "5" :: [locB]) }
        0 [mkItem "5"] [5] 0).table) := by
  have hp : process { cW with service_locations := some (mkLoc1 "5" :: [locB]) } =
      .ok (mkState { cW with service_locations := some (mkLoc1 "5" :: [locB]) }
        0 [mkItem "5"] [5] 0) := by rfl
  exact ⟨hp, claim6_first_location_only cW (mkLoc1 "5") [locB] _ hp⟩

/-- Claim C7 counterexample: for street "A", empty city, state "B", empty
zip, the code's template yields "A , B" (the comma after the empty city and
the double separator survive), while joining the non-empty components with
single spaces would yield "A B"; the claim is false for this location. -/
theorem claim7_counterexample :
    displayedAddress ⟨some "A", none, some "B", none⟩ ≠
      specJoinAddress ⟨some "A", none, some "B", none⟩ ∧
    displayedAddress ⟨some "A", none, some "B", none⟩ = "A , B" ∧
    specJoinAddress ⟨some "A", none, some "B", none⟩ = "A B" :=
  ⟨by decide, by decide, by decide⟩

/-- Claim C7 (amended): the displayed address is the fixed template
`street city, state zip` over the defaulted components (so interior
separators from empty components survive), stripped of leading and trailing
commas and spaces; when all four components are empty the displayed address
is "Address not found". -/
theorem claim7_address_template (a : Address) :
    displayedAddress a = specAddressAmended a ∧
    (componentOf a.street = "" → componentOf a.city = "" →
      componentOf a.state = "" → componentOf a.zip = "" →
      displayedAddress a = "Address not found") := by
  refine ⟨rfl, ?_⟩
  intro h1 h2 h3 h4
  simp only [displayedAddress, h1, h2, h3, h4]
  decide

theorem claim7_witness :
    displayedAddress emptyAddress = specAddressAmended emptyAddress ∧
    displayedAddress emptyAddress = "Address not found" :=
  ⟨(claim7_address_template emptyAddress).1,
   (claim7_address_template emptyAddress).2 rfl rfl rfl rfl⟩

theorem filter_ne_comma_idem (l : List Char) :
    (l.filter (fun ch => ch != ',')).filter (fun ch => ch != ',') =
      l.filter (fun ch => ch != ',') := by
  induction l with
  | nil => rfl
  | cons a t ih =>
    by_cases h : a = ','
    · simp [h, ih]
    · simp [List.filter_cons, h, ih]

theorem stripCommas_idem (s : String) :
    stripCommas (stripCommas s) = stripCommas s :=
  congrArg String.mk (filter_ne_comma_idem s.data)

theorem normNum_stripCommas (s : String) : normNum (stripCommas s) = normNum s := by
  unfold normNum
  rw [stripCommas_idem]

theorem parseTotal_stripItem (it : LineItem) :
    parseTotal (stripItem it) = parseTotal it := by
  cases h : it.total with
  | none => simp [parseTotal, stripItem, h]
  | some str => simp [parseTotal, stripItem, h, normNum_stripCommas]

theorem parseTotals_map_stripItem (items : List LineItem) :
    parseTotals (items.map stripItem) = parseTotals items := by
  induction items with
  | nil => rfl
  | cons a t ih => simp [parseTotals, parseTotal_stripItem, ih]

theorem mkRows_map_stripItem (i : Nat) (items : List LineItem) (ts : List ℚ) :
    mkRows i ((items.map stripItem).zip ts) = mkRows i (items.zip ts) := by
  induction items generalizing i ts with
  | nil => rfl
  | cons a t ih =>
    cases ts with
    | nil => rfl
    | cons q qs =>
      simp [mkRows, stripItem]
      exact ih (i + 1) qs

theorem locEntries_map_stripLoc (ls : List Location) :
    locEntries (ls.map stripLoc) = locEntries ls := by
  unfold locEntries
  rw [List.map_map]
  exact List.map_congr_left (fun l _ => rfl)

theorem items_stripLoc (l : Location) :
    (stripLoc l).line_items.getD [] = (l.line_items.getD []).map stripItem := by
  cases h : l.line_items <;> simp [stripLoc, h]

theorem costOf_stripContent (c : Content) : costOf (stripContent c) = costOf c := by
  cases h : c.GPTCostIncurred with
  | none => simp [costOf, stripContent, h]
  | some str => simp [costOf, stripContent, h, normNum_stripCommas]

theorem invoiceOf_stripContent (c : Content) :
    invoiceOf (stripContent c) = invoiceOf c := by
  cases h : c.invoice_total with
  | none => simp [invoiceOf, stripContent, h]
  | some str => simp [invoiceOf, stripContent, h, normNum_stripCommas]

theorem mkState_stripContent (c : Content) (cost : ℚ) (items : List LineItem)
    (ts : List ℚ) (inv : ℚ) :
    mkState (stripContent c) cost (items.map stripItem) ts inv =
      mkState c cost items ts inv := by
  have hie : (List.map stripItem items).isEmpty = items.isEmpty := by
    cases items <;> rfl
  have hloc : (stripContent c).service_locations.getD [] =
      (c.service_locations.getD []).map stripLoc := by
    cases h : c.service_locations <;> simp [stripContent, h]
  unfold mkState
  simp [mkRows_map_stripItem, hie, hloc, locEntries_map_stripLoc,
    show (stripContent c).Prompt_Version = c.Prompt_Version from rfl,
    show (stripContent c).NoOfTokensUsed = c.NoOfTokensUsed from rfl,
    show (stripContent c).invoice_number = c.invoice_number from rfl,
    show (stripContent c).accrual_date = c.accrual_date from rfl,
    show (stripContent c).due_date = c.due_date from rfl]

theorem process_stripContent (c : Content) :
    process (stripContent c) = process c := by
  cases hco : costOf c with
  | none =>
    have hcs : costOf (stripContent c) = none := by rw [costOf_stripContent, hco]
    simp only [process, hco, hcs]
  | some cost =>
    have hcs : costOf (stripContent c) = some cost := by rw [costOf_stripContent, hco]
    cases hsl : c.service_locations with
    | none =>
      have hl2 : locsOf c = [emptyLoc] := by simp [locsOf, hsl]
      have hl1 : locsOf (stripContent c) = [emptyLoc] := by
        simp [locsOf, stripContent, hsl]
      have ht : parseTotals (emptyLoc.line_items.getD []) = some [] := rfl
      cases hinv : invoiceOf c with
      | none =>
        have hi1 : invoiceOf (stripContent c) = none := by
          rw [invoiceOf_stripContent, hinv]
        simp only [process, hco, hcs, hl1, hl2, ht, hinv, hi1]
      | some inv =>
        have hi1 : invoiceOf (stripContent c) = some inv := by
          rw [invoiceOf_stripContent, hinv]
        simp only [process, hco, hcs, hl1, hl2, ht, hinv, hi1]
        exact congrArg Except.ok (mkState_stripContent c cost [] [] inv)
    | some ls =>
      cases ls with
      | nil =>
        have hl2 : locsOf c = [] := by simp [locsOf, hsl]
        have hl1 : locsOf (stripContent c) = [] := by
          simp [locsOf, stripContent, hsl]
        simp only [process, hco, hcs, hl1, hl2]
      | cons loc rest =>
        have hl2 : locsOf c = loc :: rest := by simp [locsOf, hsl]
        have hl1 : locsOf (stripContent c) = stripLoc loc :: rest.map stripLoc := by
          simp [locsOf, stripContent, hsl]
        cases hts : parseTotals (loc.line_items.getD []) with
        | none =>
          have ht1 : parseTotals ((stripLoc loc).line_items.getD []) = none := by
            rw [items_stripLoc, parseTotals_map_stripItem, hts]
          simp only [process, hco, hcs, hl1, hl2, hts, ht1]
        | some ts =>
          have ht1 : parseTotals ((stripLoc loc).line_items.getD []) = some ts := by
            rw [items_stripLoc, parseTotals_map_stripItem, hts]
          cases hinv : invoiceOf c with
          | none =>
            have hi1 : invoiceOf (stripContent c) = none := by
              rw [invoiceOf_stripContent, hinv]
            simp only [process, hco, hcs, hl1, hl2, hts, ht1, hinv, hi1]
          | some inv =>
            have hi1 : invoiceOf (stripContent c) = some inv := by
              rw [invoiceOf_stripContent, hinv]
            simp only [process, hco, hcs, hl1, hl2, hts, ht1, hinv, hi1]
            rw [items_stripLoc, mkState_stripContent]

/-- Claim C8: numeric normalization is invariant under comma formatting:
two strings with the same comma-stripped form normalize to the same number,
two contents whose numeric fields (cost, every line-item total, invoice
total) agree up to grouping commas produce identical pipeline results, and
in particular "1,234.50" and "1234.50" both normalize to 1234.50. -/
theorem claim8_comma_invariance :
    (∀ s1 s2 : String, stripCommas s1 = stripCommas s2 → normNum s1 = normNum s2) ∧
    (∀ c1 c2 : Content, stripContent c1 = stripContent c2 → process c1 = process c2) ∧
    normNum "1,234.50" = some (2469 / 2) ∧ normNum "1234.50" = some (2469 / 2) := by
  refine ⟨?_, ?_, by decide, by decide⟩
  · intro s1 s2 hEq
    unfold normNum
    rw [← stripCommas_idem s1, hEq, stripCommas_idem]
  · intro c1 c2 hEq
    rw [← process_stripContent c1, hEq, process_stripContent]

theorem claim8_witness :
    stripCommas "1,234.50" = stripCommas "1234.50" ∧
    normNum "1,234.50" = normNum "1234.50" ∧
    stripContent c8a = stripContent c8b ∧ process c8a = process c8b := by
  have h1 : stripCommas "1,234.50" = stripCommas "1234.50" := by decide
  have h2 : stripContent c8a = stripContent c8b := by decide
  exact ⟨h1, claim8_comma_invariance.1 "1,234.50" "1234.50" h1, h2,
    claim8_comma_invariance.2.1 c8a c8b h2⟩

end Invoice
